import Mathlib

/-!
Shallow embedding of the Shell-Exam-Tool repository (exam-recorder and
exam-viewer crates) and verification of its specification.

Bytes are modelled as `Nat` (the source uses `u8`; where overflow matters
the model reduces modulo 256 explicitly).  External library crates used by
the source (`aes-gcm`, `pbkdf2`, `sha2`, `rand`, `zip`) are not part of the
repository; they are modelled by executable functions that are faithful to
the interface properties the source relies on (documented at each model).
-/

/-! ## Byte/string helpers (models of Rust `str::as_bytes`, `String::from_utf8_lossy`, `str::trim`) -/

/-- Model of Rust `str::as_bytes`: one number per character (codepoint-level
model of the encoding; the byte strings the claims exercise are ASCII, where
this coincides with UTF-8). -/
def strBytes (s : String) : List Nat :=
  s.data.map Char.toNat

/-- Model of Rust `String::from_utf8_lossy(..).to_string()` on the valid
byte strings produced by this program (codepoint-level inverse of
`strBytes`). -/
def bytesToString (l : List Nat) : String :=
  String.mk (l.map Char.ofNat)

/-- The Unicode `White_Space` characters, as recognised by Rust
`char::is_whitespace`. -/
def rustWhitespace : List Char :=
  [Char.ofNat 9, Char.ofNat 10, Char.ofNat 11, Char.ofNat 12, Char.ofNat 13,
   Char.ofNat 32, Char.ofNat 133, Char.ofNat 160, Char.ofNat 5760,
   Char.ofNat 8192, Char.ofNat 8193, Char.ofNat 8194, Char.ofNat 8195,
   Char.ofNat 8196, Char.ofNat 8197, Char.ofNat 8198, Char.ofNat 8199,
   Char.ofNat 8200, Char.ofNat 8201, Char.ofNat 8202, Char.ofNat 8232,
   Char.ofNat 8233, Char.ofNat 8239, Char.ofNat 8287, Char.ofNat 12288]

/-- Rust `char::is_whitespace`. -/
def isRustWhitespace (c : Char) : Bool :=
  rustWhitespace.contains c

/-- Rust `str::trim` on a character list: drop whitespace from both ends. -/
def trimChars (l : List Char) : List Char :=
  ((l.dropWhile isRustWhitespace).reverse.dropWhile isRustWhitespace).reverse

/-- Rust `str::trim` (result materialised as a `String`, as the source does
with `.to_string()` where it keeps the trimmed text). -/
def rustTrim (s : String) : String :=
  String.mk (trimChars s.data)

/-- The lowercase hex digit characters used by `hex::encode`. -/
def hexDigits : List Char :=
  String.data "0123456789abcdef"

/-- One lowercase hex digit. -/
def hexDigit (n : Nat) : Char :=
  hexDigits.getD n '0'

/-- Model of `hex::encode`: two lowercase hex digits per byte. -/
def hexEncode (l : List Nat) : String :=
  String.mk (l.flatMap (fun b => [hexDigit (b / 16 % 16), hexDigit (b % 16)]))

/-! ## Models of the external crypto crates

The source calls `pbkdf2::pbkdf2_hmac::<Sha256>`, `aes_gcm::Aes256Gcm`,
`sha2::Sha256` and `rand::thread_rng`.  These are modelled by executable
functions with the interface properties the source depends on:

* key derivation is a deterministic function of password, salt and
  iteration count (so producer and consumer derive the same key);
* AES-256-GCM encryption of `data` yields `ciphertext || tag(16)` with
  `ciphertext.length = data.length`; decryption rejects inputs shorter
  than the 16-byte tag, rejects any tag mismatch, and inverts encryption
  under the same key and nonce;
* SHA-256 is a deterministic function of the input bytes (32-byte digest);
* the RNG yields a 12-byte nonce.
-/

namespace CryptoModel

/-- Model of `pbkdf2_hmac::<Sha256>(password, salt, iterations)` producing a
32-byte key: a deterministic mixing function of its inputs. -/
def pbkdf2_hmac_sha256 (password salt : List Nat) (iterations : Nat) : List Nat :=
  (List.range 32).map (fun i =>
    (password.foldl (fun a b => a * 131 + b + 7) 5 +
     salt.foldl (fun a b => a * 137 + b + 11) 3 +
     iterations * 29 + i * 101) % 256)

/-- Model keystream byte `i` of AES-256-CTR under `key` and `nonce`. -/
def gcmKeystream (key nonce : List Nat) (i : Nat) : Nat :=
  (key.foldl (fun a b => a * 251 + b) 17 +
   nonce.foldl (fun a b => a * 241 + b) 19 + i * 97) % 256

/-- XOR the plaintext with the keystream starting at index `i`
(involutive, as the real counter-mode masking is). -/
def maskBytes (key nonce : List Nat) (i : Nat) : List Nat → List Nat
  | [] => []
  | b :: rest => (b ^^^ gcmKeystream key nonce i) :: maskBytes key nonce (i + 1) rest

/-- Model of the 16-byte GCM authentication tag over the ciphertext body. -/
def gcmTag (key nonce body : List Nat) : List Nat :=
  (List.range 16).map (fun i =>
    (key.sum * 3 + nonce.sum * 7 + body.foldl (fun a b => (a * 257 + b) % 1000003) 97 +
     body.length * 11 + i * 131) % 256)

/-- Model of `Aes256Gcm::encrypt`: masked body followed by the 16-byte tag. -/
def aes256gcm_encrypt (key nonce data : List Nat) : List Nat :=
  maskBytes key nonce 0 data ++ gcmTag key nonce (maskBytes key nonce 0 data)

/-- Model of `Aes256Gcm::decrypt`: reject inputs shorter than the tag,
recompute and check the tag, unmask the body.  Returns `none` on failure
(the crate returns `Err`). -/
def aes256gcm_decrypt (key nonce ct : List Nat) : Option (List Nat) :=
  if ct.length < 16 then none
  else
    let body := ct.take (ct.length - 16)
    let tag := ct.drop (ct.length - 16)
    if tag = gcmTag key nonce body then some (maskBytes key nonce 0 body) else none

/-- Model of `rand::thread_rng().fill_bytes` on a 12-byte buffer: the
12-byte nonce determined by the RNG state `rng`. -/
def genNonce (rng : Nat) : List Nat :=
  (List.range 12).map (fun i => rng / 256 ^ i % 256)

/-- Model of `sha2::Sha256` over the full input: a 32-byte digest as a
deterministic function of the bytes. -/
def sha256 (data : List Nat) : List Nat :=
  (List.range 32).map (fun i =>
    (data.foldl (fun a b => (a * 263 + b + 1) % 100000037) 5381 + i * 17) % 256)

theorem length_maskBytes (key nonce : List Nat) (i : Nat) (l : List Nat) :
    (maskBytes key nonce i l).length = l.length := by
  induction l generalizing i with
  | nil => rfl
  | cons b rest ih => simp [maskBytes, ih]

theorem maskBytes_maskBytes (key nonce : List Nat) (i : Nat) (l : List Nat) :
    maskBytes key nonce i (maskBytes key nonce i l) = l := by
  induction l generalizing i with
  | nil => rfl
  | cons b rest ih => simp [maskBytes, ih, Nat.xor_assoc]

theorem length_gcmTag (key nonce body : List Nat) : (gcmTag key nonce body).length = 16 := by
  simp [gcmTag]

theorem length_genNonce (rng : Nat) : (genNonce rng).length = 12 := by
  simp [genNonce]

/-- AEAD correctness of the model: decryption under the same key and nonce
inverts encryption. -/
theorem aes256gcm_decrypt_encrypt (key nonce data : List Nat) :
    aes256gcm_decrypt key nonce (aes256gcm_encrypt key nonce data) = some data := by
  unfold aes256gcm_decrypt aes256gcm_encrypt
  have hlen : (maskBytes key nonce 0 data ++
      gcmTag key nonce (maskBytes key nonce 0 data)).length =
      data.length + 16 := by
    simp [List.length_append, length_maskBytes, length_gcmTag]
  rw [hlen]
  have hnotlt : ¬ (data.length + 16 < 16) := by omega
  rw [if_neg hnotlt]
  have hdrop : data.length + 16 - 16 = (maskBytes key nonce 0 data).length := by
    simp [length_maskBytes]
  rw [hdrop, List.take_left, List.drop_left]
  rw [if_pos rfl, maskBytes_maskBytes]

end CryptoModel

/-! ## exam-recorder/src/encryption.rs -/

namespace Encryption

open CryptoModel

/-- `derive_key_from_password` (encryption.rs lines 44-53): PBKDF2-HMAC-SHA256,
salt `exam-recorder-suite-salt-v1`, 100000 iterations, 32-byte key. -/
def derive_key_from_password (password : String) : List Nat :=
  pbkdf2_hmac_sha256 (strBytes password) (strBytes "exam-recorder-suite-salt-v1") 100000

/-- `encrypt_file` (encryption.rs lines 9-25): derive the key, draw a random
12-byte nonce (the RNG is modelled by the explicit `rng` argument), encrypt
with AES-256-GCM, and prepend the nonce. -/
def encrypt_file (data : List Nat) (password : String) (rng : Nat) : List Nat :=
  let key := derive_key_from_password password
  let nonce := genNonce rng
  nonce ++ aes256gcm_encrypt key nonce data

/-- `decrypt_file` (encryption.rs lines 27-42): reject inputs shorter than
12 bytes, split nonce and ciphertext, decrypt.  `none` models `Err`. -/
def decrypt_file (encrypted : List Nat) (password : String) : Option (List Nat) :=
  if encrypted.length < 12 then none
  else
    let key := derive_key_from_password password
    let nonce := encrypted.take 12
    let ciphertext := encrypted.drop 12
    aes256gcm_decrypt key nonce ciphertext

/-- `calculate_file_hash` (encryption.rs lines 55-59): lowercase-hex SHA-256. -/
def calculate_file_hash (data : List Nat) : String :=
  hexEncode (CryptoModel.sha256 data)

end Encryption

/-! ## exam-viewer/src/decryptor.rs, free functions -/

namespace Decryptor

open CryptoModel

/-- `derive_key_from_password` (decryptor.rs lines 154-163): identical to the
recorder's derivation (same salt, iteration count and PRF). -/
def derive_key_from_password (password : String) : List Nat :=
  pbkdf2_hmac_sha256 (strBytes password) (strBytes "exam-recorder-suite-salt-v1") 100000

/-- `decrypt_file` (decryptor.rs lines 132-152): identical envelope parsing
to the recorder's `decrypt_file`. -/
def decrypt_file (encrypted : List Nat) (password : String) : Option (List Nat) :=
  if encrypted.length < 12 then none
  else
    let key := derive_key_from_password password
    let nonce := encrypted.take 12
    let ciphertext := encrypted.drop 12
    aes256gcm_decrypt key nonce ciphertext

end Decryptor

/-! ## Envelope round-trip lemmas shared by several claims -/

theorem Encryption.length_encrypt_file (data : List Nat) (password : String) (rng : Nat) :
    (Encryption.encrypt_file data password rng).length = data.length + 28 := by
  simp [Encryption.encrypt_file, CryptoModel.length_genNonce,
    CryptoModel.aes256gcm_encrypt, CryptoModel.length_maskBytes, CryptoModel.length_gcmTag]
  omega

theorem Encryption.decrypt_encrypt_roundtrip_rec (data : List Nat) (password : String) (rng : Nat) :
    Encryption.decrypt_file (Encryption.encrypt_file data password rng) password = some data := by
  unfold Encryption.decrypt_file
  have hlen := Encryption.length_encrypt_file data password rng
  rw [hlen]
  have hnotlt : ¬ (data.length + 28 < 12) := by omega
  rw [if_neg hnotlt]
  show CryptoModel.aes256gcm_decrypt _ ((Encryption.encrypt_file data password rng).take 12)
      ((Encryption.encrypt_file data password rng).drop 12) = some data
  unfold Encryption.encrypt_file
  have h12 : (12 : Nat) = (CryptoModel.genNonce rng).length :=
    (CryptoModel.length_genNonce rng).symm
  rw [h12, List.take_left, List.drop_left]
  exact CryptoModel.aes256gcm_decrypt_encrypt _ _ _

theorem Decryptor.decrypt_encrypt_roundtrip_view (data : List Nat) (password : String) (rng : Nat) :
    Decryptor.decrypt_file (Encryption.encrypt_file data password rng) password = some data :=
  Encryption.decrypt_encrypt_roundtrip_rec data password rng

/-- C2: For every byte sequence `D`, password `P` (and RNG draw for the
nonce), decrypting the producer's encryption with the same password
succeeds and returns `D`, with the recorder's `decrypt_file`
(encryption.rs) and with the viewer's `decrypt_file` (decryptor.rs): both
use the same PBKDF2-HMAC-SHA256 key derivation and the
`nonce(12) || ciphertext_with_tag` envelope. -/
theorem encrypt_decrypt_roundtrip (data : List Nat) (password : String) (rng : Nat) :
    Encryption.decrypt_file (Encryption.encrypt_file data password rng) password = some data ∧
    Decryptor.decrypt_file (Encryption.encrypt_file data password rng) password = some data :=
  ⟨Encryption.decrypt_encrypt_roundtrip_rec data password rng,
   Decryptor.decrypt_encrypt_roundtrip_view data password rng⟩

/-- C7: every input shorter than 28 bytes is rejected by both the
recorder's and the viewer's `decrypt_file` (a sub-12-byte input fails the
explicit length check; otherwise the remaining ciphertext is shorter than
the 16-byte GCM tag and the AEAD rejects it). -/
theorem short_envelope_rejected (encrypted : List Nat) (password : String)
    (h : encrypted.length < 28) :
    Encryption.decrypt_file encrypted password = none ∧
    Decryptor.decrypt_file encrypted password = none := by
  have hrec : Encryption.decrypt_file encrypted password = none := by
    unfold Encryption.decrypt_file
    by_cases h12 : encrypted.length < 12
    · rw [if_pos h12]
    · rw [if_neg h12]
      show CryptoModel.aes256gcm_decrypt _ _ (encrypted.drop 12) = none
      unfold CryptoModel.aes256gcm_decrypt
      have : (encrypted.drop 12).length < 16 := by
        simp [List.length_drop]
        omega
      rw [if_pos this]
  exact ⟨hrec, hrec⟩

/-- Witness for C7 at a concrete 27-byte input. -/
theorem short_envelope_rejected_witness :
    Encryption.decrypt_file (List.replicate 27 0) "pw" = none ∧
    Decryptor.decrypt_file (List.replicate 27 0) "pw" = none :=
  short_envelope_rejected (List.replicate 27 0) "pw" (by decide)

/-! ## Model of the `zip` crate container

`create_password_protected_zip` (encryption.rs lines 61-91) writes the
members into a ZIP container (deflate) and the viewer re-opens it with
`zip::ZipArchive`, iterating entries in insertion order.  The container
format is library code; it is modelled as an invertible length-prefixed
encoding of the `(name, data)` entry list, which is exactly the interface
property the source relies on (what is written is read back, same names,
same bytes, same order). -/

/-- One archive entry: name length, name bytes, data length, data bytes. -/
def encodeEntry (e : String × List Nat) : List Nat :=
  (strBytes e.1).length :: (strBytes e.1 ++ e.2.length :: e.2)

/-- Concatenated encoded entries. -/
def zipEntriesBytes : List (String × List Nat) → List Nat
  | [] => []
  | e :: rest => encodeEntry e ++ zipEntriesBytes rest

/-- Model of `zip::ZipWriter`: entry count followed by the encoded entries. -/
def zipWrite (files : List (String × List Nat)) : List Nat :=
  files.length :: zipEntriesBytes files

/-- Decode `n` entries from the byte stream. -/
def decodeEntries : Nat → List Nat → Option (List (String × List Nat))
  | 0, bs => if bs.isEmpty then some [] else none
  | _ + 1, [] => none
  | n + 1, nameLen :: bs1 =>
    let nb := bs1.take nameLen
    let bs2 := bs1.drop nameLen
    if nb.length = nameLen then
      match bs2 with
      | [] => none
      | dataLen :: bs3 =>
        let d := bs3.take dataLen
        let bs4 := bs3.drop dataLen
        if d.length = dataLen then
          match decodeEntries n bs4 with
          | some es => some ((bytesToString nb, d) :: es)
          | none => none
        else none
    else none

/-- Model of `zip::ZipArchive`: recover the entry list, or fail on a
malformed container. -/
def zipRead (bytes : List Nat) : Option (List (String × List Nat)) :=
  match bytes with
  | [] => none
  | n :: rest => decodeEntries n rest

theorem bytesToString_strBytes (s : String) : bytesToString (strBytes s) = s := by
  cases s with
  | mk data =>
    simp [bytesToString, strBytes, List.map_map, Function.comp_def, Char.ofNat_toNat]

theorem decodeEntries_zipEntriesBytes (files : List (String × List Nat)) :
    decodeEntries files.length (zipEntriesBytes files) = some files := by
  induction files with
  | nil => rfl
  | cons f fs ih =>
    obtain ⟨name, d⟩ := f
    show decodeEntries (fs.length + 1)
      (encodeEntry (name, d) ++ zipEntriesBytes fs) = some ((name, d) :: fs)
    simp only [encodeEntry, List.cons_append, List.append_assoc, List.cons_append]
    simp only [decodeEntries, List.take_left, List.drop_left]
    simp [ih, bytesToString_strBytes]

/-- Container round-trip: reading back what was written yields the same
entry list. -/
theorem zipRead_zipWrite (files : List (String × List Nat)) :
    zipRead (zipWrite files) = some files := by
  show decodeEntries files.length (zipEntriesBytes files) = some files
  exact decodeEntries_zipEntriesBytes files

/-- `create_password_protected_zip` (encryption.rs lines 61-91): build the
archive, then encrypt the whole archive with `encrypt_file`. -/
def Encryption.create_password_protected_zip (files : List (String × List Nat))
    (password : String) (rng : Nat) : List Nat :=
  Encryption.encrypt_file (zipWrite files) password rng

/-! ## Artifact Packager: the packaging portion of `Recorder::finalize`
(recorder.rs lines 345-422).

The five payloads are taken as byte strings (the source produces them by
JSON serialisation or, for the terminal output, verbatim); the IO portions
of `finalize` (paths, permissions, prints) are not modelled.  The six RNG
draws of the six `encrypt_file` calls are explicit arguments. -/

def package (events summary metadata terminal_output state_copy : List Nat)
    (password : String) (r1 r2 r3 r4 r5 r6 : Nat) : List Nat :=
  let events_enc := Encryption.encrypt_file events password r1
  let summary_enc := Encryption.encrypt_file summary password r2
  let metadata_enc := Encryption.encrypt_file metadata password r3
  let terminal_output_enc := Encryption.encrypt_file terminal_output password r4
  let state_copy_enc := Encryption.encrypt_file state_copy password r5
  let integrity_data := events_enc ++ summary_enc ++ metadata_enc ++
    terminal_output_enc ++ state_copy_enc
  let integrity_hash := Encryption.calculate_file_hash integrity_data
  let zip_files := [("events.json.enc", events_enc),
    ("summary.json.enc", summary_enc),
    ("metadata.json.enc", metadata_enc),
    ("terminal_output.log.enc", terminal_output_enc),
    ("state_copy.json.enc", state_copy_enc),
    ("integrity.sha256", strBytes integrity_hash)]
  Encryption.create_password_protected_zip zip_files password r6

/-! ## Artifact Reader: `Decryptor::decrypt` and `Decryptor::verify_integrity`
(decryptor.rs lines 20-129).

The source parses four members with `serde_json` and converts two to
strings with `from_utf8_lossy`; the claims are about byte-for-byte
recovery, so the model keeps the decrypted member bytes (the parse input)
and materialises only the integrity member as a string, as the source
does. -/

/-- The decrypted artifact contents (analyzer.rs `DecryptedData`, with the
payload fields kept as the decrypted bytes the source then parses). -/
structure DecryptedData where
  events : List Nat
  summary : List Nat
  metadata : List Nat
  terminal_output : List Nat
  state_copy : List Nat
  integrity_hash : String
deriving DecidableEq, Repr

/-- Accumulator of the member-collection loop in `Decryptor::decrypt`
(one `Option` per expected member, as in the source). -/
structure ReadAcc where
  events : Option (List Nat)
  summary : Option (List Nat)
  metadata : Option (List Nat)
  terminal_output : Option (List Nat)
  state_copy : Option (List Nat)
  integrity_hash : Option String
deriving DecidableEq, Repr

/-- The per-entry loop of `Decryptor::decrypt` (decryptor.rs lines 40-76):
match on the member name, decrypt payload members (a failed member
decryption aborts the whole read, as `?` does), keep the integrity member
as trimmed text. -/
def readEntries (password : String) : List (String × List Nat) → ReadAcc → Option ReadAcc
  | [], acc => some acc
  | (name, contents) :: rest, acc =>
    if name = "events.json.enc" then
      match Decryptor.decrypt_file contents password with
      | none => none
      | some d => readEntries password rest { acc with events := some d }
    else if name = "summary.json.enc" then
      match Decryptor.decrypt_file contents password with
      | none => none
      | some d => readEntries password rest { acc with summary := some d }
    else if name = "metadata.json.enc" then
      match Decryptor.decrypt_file contents password with
      | none => none
      | some d => readEntries password rest { acc with metadata := some d }
    else if name = "terminal_output.log.enc" then
      match Decryptor.decrypt_file contents password with
      | none => none
      | some d => readEntries password rest { acc with terminal_output := some d }
    else if name = "state_copy.json.enc" then
      match Decryptor.decrypt_file contents password with
      | none => none
      | some d => readEntries password rest { acc with state_copy := some d }
    else if name = "integrity.sha256" then
      readEntries password rest
        { acc with integrity_hash := some (rustTrim (bytesToString contents)) }
    else readEntries password rest acc

/-- `Decryptor::decrypt` (decryptor.rs lines 20-86): decrypt the outer
envelope, open the archive, collect the members, and require all six
(a missing member is a fatal error). -/
def Decryptor.decrypt (artifact : List Nat) (password : String) : Option DecryptedData :=
  match Decryptor.decrypt_file artifact password with
  | none => none
  | some zip_data =>
    match zipRead zip_data with
    | none => none
    | some entries =>
      match readEntries password entries ⟨none, none, none, none, none, none⟩ with
      | none => none
      | some acc =>
        match acc.events, acc.summary, acc.metadata,
            acc.terminal_output, acc.state_copy, acc.integrity_hash with
        | some e, some s, some m, some t, some sc, some ih =>
          some ⟨e, s, m, t, sc, ih⟩
        | _, _, _, _, _, _ => none

/-- Rust `str::ends_with(".enc")` on a member name (byte-level). -/
def isEncName (s : String) : Bool :=
  (strBytes ".enc").isSuffixOf (strBytes s)

/-- `Decryptor::verify_integrity` (decryptor.rs lines 88-129): decrypt the
outer envelope, open the archive, take the trimmed integrity member and
the `.enc` members in archive order, hash the concatenated `.enc` member
bytes and compare with the expected hex digest. -/
def Decryptor.verify_integrity (artifact : List Nat) (password : String) : Option Bool :=
  match Decryptor.decrypt_file artifact password with
  | none => none
  | some zip_data =>
    match zipRead zip_data with
    | none => none
    | some entries =>
      let integrity_hash := entries.foldl
        (fun acc e => if e.1 = "integrity.sha256"
          then some (rustTrim (bytesToString e.2)) else acc) none
      let encrypted_files := entries.filter (fun e => isEncName e.1)
      match integrity_hash with
      | none => none
      | some expected_hash =>
        let calculated_hash := hexEncode (CryptoModel.sha256
          (encrypted_files.foldl (fun acc e => acc ++ e.2) []))
        some (calculated_hash == expected_hash)

/-! ## Trimming the hex digest is a no-op (needed for the integrity check) -/

theorem dropWhile_eq_self_of_forall {α : Type} (p : α → Bool) (l : List α)
    (h : ∀ c ∈ l, p c = false) : l.dropWhile p = l := by
  cases l with
  | nil => rfl
  | cons a rest => simp [List.dropWhile_cons, h a (by simp)]

theorem trimChars_eq_self (l : List Char) (h : ∀ c ∈ l, isRustWhitespace c = false) :
    trimChars l = l := by
  unfold trimChars
  rw [dropWhile_eq_self_of_forall _ _ h]
  rw [dropWhile_eq_self_of_forall _ _ (fun c hc => h c (List.mem_reverse.mp hc))]
  exact List.reverse_reverse l

theorem isRustWhitespace_hexDigit : ∀ n < 16, isRustWhitespace (hexDigit n) = false := by
  decide

theorem mem_hexEncode_not_whitespace (l : List Nat) :
    ∀ c ∈ (hexEncode l).data, isRustWhitespace c = false := by
  intro c hc
  simp only [hexEncode, List.mem_flatMap, List.mem_cons, List.not_mem_nil, or_false] at hc
  obtain ⟨b, _, hcase⟩ := hc
  rcases hcase with h | h
  · rw [h]
    exact isRustWhitespace_hexDigit _ (Nat.mod_lt _ (by omega))
  · rw [h]
    exact isRustWhitespace_hexDigit _ (Nat.mod_lt _ (by omega))

theorem rustTrim_hexEncode (l : List Nat) : rustTrim (hexEncode l) = hexEncode l := by
  unfold rustTrim
  rw [trimChars_eq_self _ (mem_hexEncode_not_whitespace l)]

/-- C1: for every five-payload set and any password (and any RNG draws for
the six nonces), packaging via `package` (the Artifact Packager portion of
`Recorder::finalize`: encrypt each payload, hash the concatenated
ciphertexts, assemble the six archive members, outer-encrypt) and then
reading the artifact with `Decryptor.decrypt` under the same password
recovers each payload byte-for-byte, and `Decryptor.verify_integrity`
returns `true`. -/
theorem artifact_roundtrip_recovers_payloads
    (ev sm md tl sc : List Nat) (pw : String) (r1 r2 r3 r4 r5 r6 : Nat) :
    (Decryptor.decrypt (package ev sm md tl sc pw r1 r2 r3 r4 r5 r6) pw).map
      (fun d => (d.events, d.summary, d.metadata, d.terminal_output, d.state_copy)) =
      some (ev, sm, md, tl, sc) ∧
    Decryptor.verify_integrity (package ev sm md tl sc pw r1 r2 r3 r4 r5 r6) pw =
      some true := by
  have he1 : isEncName "events.json.enc" = true := by decide
  have he2 : isEncName "summary.json.enc" = true := by decide
  have he3 : isEncName "metadata.json.enc" = true := by decide
  have he4 : isEncName "terminal_output.log.enc" = true := by decide
  have he5 : isEncName "state_copy.json.enc" = true := by decide
  have he6 : isEncName "integrity.sha256" = false := by decide
  constructor
  · simp [package, Encryption.create_password_protected_zip, Decryptor.decrypt,
      Decryptor.decrypt_encrypt_roundtrip_view, zipRead_zipWrite, readEntries]
  · simp [package, Encryption.create_password_protected_zip, Decryptor.verify_integrity,
      Decryptor.decrypt_encrypt_roundtrip_view, zipRead_zipWrite,
      he1, he2, he3, he4, he5, he6, bytesToString_strBytes,
      Encryption.calculate_file_hash, rustTrim_hexEncode, List.append_assoc]

/-! ## exam-recorder/src/recorder.rs: event model

Timestamps (`SystemTime`, milliseconds) and detector instants
(`Instant`) are modelled as natural numbers of milliseconds; the
clock readings the source takes are explicit arguments (one
`SystemTime` reading per input chunk, one `Instant` reading per
byte for the paste detector). -/

/-- `KeystrokeEvent` (recorder.rs lines 11-18). -/
structure KeystrokeEvent where
  timestamp : Nat
  key_code : Nat
  key_name : String
  raw_bytes : List Nat
  is_paste : Bool
deriving DecidableEq, Repr

/-- `CommandEvent` (recorder.rs lines 20-24). -/
structure CommandEvent where
  timestamp : Nat
  command : String
deriving DecidableEq, Repr

/-- `SessionSummary` (recorder.rs lines 26-35). -/
structure SessionSummary where
  total_keystrokes : Nat
  enter_pressed : Nat
  backspace_used : Nat
  delete_used : Nat
  paste_events : Nat
  total_pasted_chars : Nat
  commands_executed : Nat
deriving DecidableEq, Repr

/-- `PasteDetector` (recorder.rs lines 47-51): deque of
`(instant, char count)` pairs plus the two tuning constants. -/
structure PasteDetector where
  recent_keystrokes : List (Nat × Nat)
  threshold_chars_per_ms : Nat
  min_chars_for_paste : Nat
deriving DecidableEq, Repr

/-- `PasteDetector::new` (recorder.rs lines 54-60). -/
def PasteDetector.new : PasteDetector :=
  { recent_keystrokes := []
    threshold_chars_per_ms := 10
    min_chars_for_paste := 20 }

/-- The front-eviction loop of `check_paste` (recorder.rs lines 67-73):
pop entries older than 100 ms from the front, stop at the first recent
one. -/
def evictOld (now : Nat) : List (Nat × Nat) → List (Nat × Nat)
  | [] => []
  | (time, c) :: rest =>
    if now - time > 100 then evictOld now rest else (time, c) :: rest

/-- `PasteDetector::check_paste` (recorder.rs lines 62-93): push the new
`(now, char_count)` entry, evict stale entries, then flag a paste when the
window holds at least `min_chars_for_paste` characters and
`total_chars * 1000 / time_span` reaches `threshold_chars_per_ms`
(`time_span` is the clamped-to-1 millisecond span of the window).  On
detection the window is cleared.  Returns the flag and the updated
detector. -/
def check_paste (d : PasteDetector) (now char_count : Nat) : Bool × PasteDetector :=
  let q := evictOld now (d.recent_keystrokes ++ [(now, char_count)])
  match q.head?, q.getLast? with
  | some first, some last =>
    let total_chars := (q.map Prod.snd).sum
    let time_span := max (last.1 - first.1) 1
    if total_chars ≥ d.min_chars_for_paste then
      let chars_per_ms := total_chars * 1000 / time_span
      if chars_per_ms ≥ d.threshold_chars_per_ms then
        (true, { d with recent_keystrokes := [] })
      else (false, { d with recent_keystrokes := q })
    else (false, { d with recent_keystrokes := q })
  | _, _ => (false, { d with recent_keystrokes := q })

/-- Run the detector over a list of instants, one `check_paste` call with
`char_count = 1` per instant (as `process_input` does for each printable
byte), collecting the flags. -/
def runPaste (d : PasteDetector) : List Nat → List Bool
  | [] => []
  | t :: ts =>
    let r := check_paste d t 1
    r.1 :: runPaste r.2 ts

/-- Rust `format!` with the `0x{:02X}` spec on a byte value: `0x` followed
by two uppercase hex digits. -/
def formatHex02X (b : Nat) : String :=
  String.mk ['0', 'x',
    (String.data "0123456789ABCDEF").getD (b / 16 % 16) '0',
    (String.data "0123456789ABCDEF").getD (b % 16) '0']

/-- `Recorder::decode_key` (recorder.rs lines 326-343): byte to
`(key_name, is_special)`, arm for arm. -/
def decode_key (byte : Nat) : String × Bool :=
  if byte = 0 then ("NULL", true)
  else if byte = 1 then ("Ctrl+A", true)
  else if byte = 2 then ("Ctrl+B", true)
  else if byte = 3 then ("Ctrl+C", true)
  else if byte = 4 then ("Ctrl+D", true)
  else if byte = 5 then ("Ctrl+E", true)
  else if byte = 6 then ("Ctrl+F", true)
  else if byte = 7 then ("Ctrl+G", true)
  else if byte = 8 ∨ byte = 127 then ("Backspace", true)
  else if byte = 9 then ("Tab", true)
  else if byte = 10 ∨ byte = 13 then ("Enter", true)
  else if byte = 27 then ("ESC", true)
  else if 32 ≤ byte ∧ byte ≤ 126 then (String.singleton (Char.ofNat byte), false)
  else (formatHex02X byte, true)

/-- The in-memory recording state of `Recorder` (recorder.rs lines 37-45);
the `state`, `metadata` and `terminal_output` fields are IO-facing and not
touched by `process_input`, so they are elided here. -/
structure Recorder where
  keystrokes : List KeystrokeEvent
  commands : List CommandEvent
  current_input : String
  paste_detector : PasteDetector
deriving DecidableEq, Repr

/-- The fresh recording state built by `Recorder::new` (recorder.rs lines
97-113): empty vectors, empty line buffer, fresh detector. -/
def Recorder.init : Recorder :=
  { keystrokes := []
    commands := []
    current_input := ""
    paste_detector := PasteDetector.new }

/-- Rust `String::pop` on the line buffer (underflow ignored). -/
def stringPop (s : String) : String :=
  String.mk s.data.dropLast

/-- One iteration of the per-byte loop of `Recorder::process_input`
(recorder.rs lines 282-317): classify the byte, run paste detection for
printable non-special bytes, track the command line buffer, and push the
`KeystrokeEvent`.  `timestamp` is the chunk's one `SystemTime` reading;
`now` is this byte's `Instant` reading for the detector. -/
def processByte (timestamp now : Nat) (r : Recorder) (byte : Nat) : Recorder :=
  let kn := decode_key byte
  let pd :=
    if kn.2 = false ∧ 32 ≤ byte ∧ byte < 127 then check_paste r.paste_detector now 1
    else (false, r.paste_detector)
  let commands :=
    if byte = 10 ∨ byte = 13 then
      if rustTrim r.current_input ≠ "" then
        if rustTrim r.current_input ≠ "exit" then
          r.commands ++ [{ timestamp := timestamp, command := rustTrim r.current_input }]
        else r.commands
      else r.commands
    else r.commands
  let current_input :=
    if byte = 10 ∨ byte = 13 then ""
    else if byte = 127 ∨ byte = 8 then stringPop r.current_input
    else if 32 ≤ byte ∧ byte < 127 ∧ kn.2 = false then
      r.current_input.push (Char.ofNat byte)
    else r.current_input
  { keystrokes := r.keystrokes ++
      [{ timestamp := timestamp, key_code := byte, key_name := kn.1,
         raw_bytes := [byte], is_paste := pd.1 }]
    commands := commands
    current_input := current_input
    paste_detector := pd.2 }

/-- `Recorder::process_input` (recorder.rs lines 276-320): one
`SystemTime` millisecond reading for the whole chunk, then the per-byte
loop.  `data` carries each byte with its `Instant` reading. -/
def process_input (timestamp : Nat) (r : Recorder) (data : List (Nat × Nat)) : Recorder :=
  data.foldl (fun r p => processByte timestamp p.1 r p.2) r

/-- `Recorder::should_exit` (recorder.rs lines 322-324). -/
def should_exit (r : Recorder) : Bool :=
  rustTrim r.current_input == "exit"

/-- The body of the per-keystroke loop of `Recorder::generate_summary`
(recorder.rs lines 435-447). -/
def summaryStep (summary : SessionSummary) (k : KeystrokeEvent) : SessionSummary :=
  let summary :=
    if k.key_name = "Enter" then { summary with enter_pressed := summary.enter_pressed + 1 }
    else if k.key_name = "Backspace" then
      { summary with backspace_used := summary.backspace_used + 1 }
    else if k.key_name = "Delete" then
      { summary with delete_used := summary.delete_used + 1 }
    else summary
  if k.is_paste then
    { summary with
      paste_events := summary.paste_events + 1
      total_pasted_chars := summary.total_pasted_chars + k.raw_bytes.length }
  else summary

/-- `Recorder::generate_summary` (recorder.rs lines 424-450). -/
def generate_summary (keystrokes : List KeystrokeEvent) (commands : List CommandEvent) :
    SessionSummary :=
  let init : SessionSummary :=
    { total_keystrokes := keystrokes.length
      enter_pressed := 0
      backspace_used := 0
      delete_used := 0
      paste_events := 0
      total_pasted_chars := 0
      commands_executed := commands.length }
  keystrokes.foldl summaryStep init


theorem evictOld_head_now (t0 : Nat) (l : List (Nat × Nat)) (h : ∀ p ∈ l, p.1 = t0) :
    evictOld t0 l = l := by
  cases l with
  | nil => rfl
  | cons p rest =>
    obtain ⟨time, c⟩ := p
    have ht : time = t0 := h (time, c) (by simp)
    subst ht
    simp [evictOld]

theorem getLast?_cons_replicate {α : Type} (a : α) (k : Nat) :
    (a :: List.replicate k a).getLast? = some a := by
  induction k with
  | zero => rfl
  | succ m ih =>
    rw [List.replicate_succ, List.getLast?_cons_cons]
    exact ih

theorem check_paste_same_instant (t0 k : Nat) :
    check_paste { recent_keystrokes := List.replicate k (t0, 1)
                  threshold_chars_per_ms := 10
                  min_chars_for_paste := 20 } t0 1 =
      if 20 ≤ k + 1 then
        (true, { recent_keystrokes := []
                 threshold_chars_per_ms := 10
                 min_chars_for_paste := 20 })
      else
        (false, { recent_keystrokes := List.replicate (k + 1) (t0, 1)
                  threshold_chars_per_ms := 10
                  min_chars_for_paste := 20 }) := by
  unfold check_paste
  have happ : List.replicate k (t0, 1) ++ [(t0, 1)] = List.replicate (k + 1) (t0, 1) :=
    (List.replicate_succ' k (t0, 1)).symm
  simp only [happ]
  rw [evictOld_head_now t0 _ (by
    intro p hp
    rw [List.eq_of_mem_replicate hp])]
  rw [List.replicate_succ]
  simp only [List.head?_cons, getLast?_cons_replicate]
  simp only [List.map_cons, List.map_replicate, List.sum_cons, List.sum_replicate,
    smul_eq_mul, Nat.mul_one, Nat.sub_self, Nat.zero_max, Nat.div_one]
  split_ifs with h1 h2 h3 <;> first | rfl | omega

/-- The flag sequence of a same-instant burst started with `k` window
characters: each keystroke is flagged exactly when the window reaches 20
characters, and detection clears the window. -/
def burstFlags : Nat → Nat → List Bool
  | _, 0 => []
  | k, n + 1 =>
    if 20 ≤ k + 1 then true :: burstFlags 0 n
    else false :: burstFlags (k + 1) n

theorem runPaste_same_instant (t0 : Nat) : ∀ (n k : Nat),
    runPaste { recent_keystrokes := List.replicate k (t0, 1)
               threshold_chars_per_ms := 10
               min_chars_for_paste := 20 } (List.replicate n t0) = burstFlags k n := by
  intro n
  induction n with
  | zero => intro k; rfl
  | succ m ih =>
    intro k
    rw [List.replicate_succ]
    rw [runPaste]
    rw [check_paste_same_instant]
    by_cases hk : 20 ≤ k + 1
    · rw [if_pos hk]
      show true :: runPaste _ (List.replicate m t0) = _
      have h0 := ih 0
      simp only [List.replicate] at h0
      rw [burstFlags, if_pos hk]
      exact congrArg (true :: ·) h0
    · rw [if_neg hk]
      show false :: runPaste _ (List.replicate m t0) = _
      rw [burstFlags, if_neg hk]
      exact congrArg (false :: ·) (ih (k + 1))

theorem burst_map_is_paste (ts t0 : Nat) : ∀ (n : Nat) (r : Recorder),
    (process_input ts r (List.replicate n (t0, 97))).keystrokes.map (fun k => k.is_paste) =
      r.keystrokes.map (fun k => k.is_paste) ++
        runPaste r.paste_detector (List.replicate n t0) := by
  intro n
  induction n with
  | zero => intro r; simp [process_input, runPaste]
  | succ m ih =>
    intro r
    rw [List.replicate_succ, process_input, List.foldl_cons]
    show (process_input ts (processByte ts t0 r 97)
      (List.replicate m (t0, 97))).keystrokes.map _ = _
    rw [ih]
    rw [List.replicate_succ]
    simp [processByte, decode_key, runPaste]

/-- C3 (code bug evidence): on a window of 20 single-character keystrokes
at instants 0, 5, ..., 95 ms (all inside the 100 ms window, so `N = 20`
and `T = 95`), the code's detector flags the 20th keystroke — its
comparison `N * 1000 / T >= threshold_chars_per_ms` tests the
characters-per-second rate 210 against the per-millisecond constant 10 —
although the documented threshold of 10 chars/ms (10000 chars/s) is not
reached: `20 * 1000 / 95 = 210 < 10000`. -/
theorem paste_threshold_units_mismatch :
    runPaste PasteDetector.new ((List.range 20).map (fun i => 5 * i)) =
      List.replicate 19 false ++ [true] ∧
    20 * 1000 / 95 < 10000 := by
  constructor
  · decide
  · decide

/-- C4 counterexample: 50 printable characters delivered at one detector
instant produce two keystrokes flagged `is_paste`, not exactly one. -/
theorem paste_burst_fifty_flag_count :
    ((process_input 0 Recorder.init (List.replicate 50 (0, 97))).keystrokes.filter
      (fun k => k.is_paste)).length = 2 := by
  decide

/-- C4 (amended): if 50 printable characters are typed at one detector
instant (within 1 ms), exactly two keystrokes are flagged `is_paste` —
the 20th and the 40th.  The window is cleared at each detection, so
flagging restarts: the 19 keystrokes after each detection are unflagged
and the threshold trips again once 20 new characters accumulate. -/
theorem paste_burst_fifty_flags_pattern (ts t0 : Nat) :
    (process_input ts Recorder.init (List.replicate 50 (t0, 97))).keystrokes.map
      (fun k => k.is_paste) =
      List.replicate 19 false ++
        true :: (List.replicate 19 false ++ true :: List.replicate 10 false) := by
  rw [burst_map_is_paste]
  show runPaste { recent_keystrokes := List.replicate 0 (t0, 1)
                  threshold_chars_per_ms := 10
                  min_chars_for_paste := 20 } (List.replicate 50 t0) = _
  rw [runPaste_same_instant]
  decide

/-- C5: in each `processByte` step, a `CommandEvent` is appended exactly
when the byte is `\n` (10) or `\r` (13) and the current line buffer,
trimmed, is non-empty and not exactly `exit`; the appended event carries
the chunk's millisecond timestamp and the trimmed buffer text, and on a
terminator byte the buffer is cleared. -/
theorem command_event_emission_iff (ts now : Nat) (r : Recorder) (byte : Nat) :
    ((processByte ts now r byte).commands =
      r.commands ++
        (if (byte = 10 ∨ byte = 13) ∧ rustTrim r.current_input ≠ "" ∧
            rustTrim r.current_input ≠ "exit"
         then [{ timestamp := ts, command := rustTrim r.current_input }] else [])) ∧
    ((byte = 10 ∨ byte = 13) → (processByte ts now r byte).current_input = "") := by
  constructor
  · show (if byte = 10 ∨ byte = 13 then _ else _) = _
    split_ifs with h1 h2 h3 h4 <;> simp_all
  · intro h
    show (if byte = 10 ∨ byte = 13 then "" else _) = ""
    rw [if_pos h]

/-- Witness for C5 at a concrete state (buffer `ls`, byte `\n`). -/
theorem command_event_emission_iff_witness :
    ((processByte 7 0 { keystrokes := []
                        commands := []
                        current_input := "ls"
                        paste_detector := PasteDetector.new } 10).commands =
      [] ++
        (if ((10 : Nat) = 10 ∨ (10 : Nat) = 13) ∧ rustTrim "ls" ≠ "" ∧ rustTrim "ls" ≠ "exit"
         then [{ timestamp := 7, command := rustTrim "ls" }] else [])) ∧
    (processByte 7 0 { keystrokes := []
                       commands := []
                       current_input := "ls"
                       paste_detector := PasteDetector.new } 10).current_input = "" :=
  ⟨(command_event_emission_iff 7 0 _ 10).1,
   (command_event_emission_iff 7 0 _ 10).2 (Or.inl rfl)⟩

/-- Modelled from the spec: the byte-to-name classifier table of §4.3. -/
def specKeyTable (b : Nat) : String × Bool :=
  if b = 0 then ("NULL", true)
  else if 1 ≤ b ∧ b ≤ 7 then (String.mk ['C', 't', 'r', 'l', '+', Char.ofNat (64 + b)], true)
  else if b = 8 ∨ b = 127 then ("Backspace", true)
  else if b = 9 then ("Tab", true)
  else if b = 10 ∨ b = 13 then ("Enter", true)
  else if b = 27 then ("ESC", true)
  else if 32 ≤ b ∧ b ≤ 126 then (String.singleton (Char.ofNat b), false)
  else (formatHex02X b, true)

set_option maxRecDepth 4096 in
/-- C6: for every byte value 0..255, `decode_key` returns exactly the
name and specialness of the spec's classifier table (`specKeyTable`). -/
theorem decode_key_matches_spec_table : ∀ b < 256, decode_key b = specKeyTable b := by
  decide

/-- Witness for C6 at the concrete byte 160. -/
theorem decode_key_matches_spec_table_witness : decode_key 160 = specKeyTable 160 :=
  decode_key_matches_spec_table 160 (by decide)

/-- The line-buffer transition of one `processByte` step (the
`current_input` component in isolation). -/
def lineStep (s : String) (byte : Nat) : String :=
  if byte = 10 ∨ byte = 13 then ""
  else if byte = 127 ∨ byte = 8 then stringPop s
  else if 32 ≤ byte ∧ byte < 127 ∧ (decode_key byte).2 = false then
    s.push (Char.ofNat byte)
  else s

theorem processByte_current_input (ts now : Nat) (r : Recorder) (byte : Nat) :
    (processByte ts now r byte).current_input = lineStep r.current_input byte := rfl

theorem process_input_current_input (ts : Nat) (data : List (Nat × Nat)) :
    ∀ r : Recorder, (process_input ts r data).current_input =
      data.foldl (fun s p => lineStep s p.2) r.current_input := by
  induction data with
  | nil => intro r; rfl
  | cons p rest ih =>
    intro r
    show (process_input ts (processByte ts p.1 r p.2) rest).current_input = _
    rw [ih]
    rw [List.foldl_cons]
    rw [processByte_current_input]

theorem foldl_lineStep_spaces : ∀ (n : Nat) (s : String),
    (List.replicate n ((0 : Nat), (32 : Nat))).foldl (fun s p => lineStep s p.2) s =
      String.mk (s.data ++ List.replicate n ' ') := by
  intro n
  induction n with
  | zero =>
    intro s
    simp
  | succ m ih =>
    intro s
    rw [List.replicate_succ, List.foldl_cons]
    rw [ih]
    show String.mk ((s.push ' ').data ++ List.replicate m ' ') = _
    simp [String.push, List.replicate_succ]

theorem dropWhile_replicate_append {α : Type} (p : α → Bool) (a : α) (hp : p a = true)
    (n : Nat) (l : List α) :
    (List.replicate n a ++ l).dropWhile p = l.dropWhile p := by
  induction n with
  | zero => rfl
  | succ m ih => simp [List.replicate_succ, List.dropWhile_cons, hp, ih]

theorem rustTrim_exit_spaces (n : Nat) :
    rustTrim (String.mk ('e' :: 'x' :: 'i' :: 't' :: List.replicate n ' ')) = "exit" := by
  unfold rustTrim trimChars
  rw [List.dropWhile_cons]
  rw [show isRustWhitespace 'e' = false from by decide, if_neg (by simp)]
  rw [show ('e' :: 'x' :: 'i' :: 't' :: List.replicate n ' ').reverse =
    List.replicate n ' ' ++ ['t', 'i', 'x', 'e'] from by
      simp [List.reverse_replicate]]
  rw [dropWhile_replicate_append _ _ (by decide)]
  rfl

/-- C8 counterexample: after a chunk that leaves the line buffer equal to
`exit` followed by a trailing space, the should-exit flag IS set (the
claim says it is not): `should_exit` trims the buffer before comparing. -/
theorem trailing_space_exit_flag_set :
    should_exit (process_input 0 Recorder.init
      [(0, 101), (0, 120), (0, 105), (0, 116), (0, 32)]) = true := by
  decide

/-- C8 (amended): after processing an input chunk that leaves the line
buffer equal to `exit` followed by any number of trailing spaces, the
should-exit flag is set — `should_exit` compares the trimmed buffer with
`exit`, so trailing whitespace does not prevent termination through the
user-command path. -/
theorem trim_exit_trailing_spaces_sets_flag (ts n : Nat) :
    should_exit (process_input ts Recorder.init
      ([(0, 101), (0, 120), (0, 105), (0, 116)] ++ List.replicate n ((0 : Nat), (32 : Nat)))) =
      true := by
  unfold should_exit
  rw [process_input_current_input]
  rw [List.foldl_append]
  have h4 : List.foldl (fun s p => lineStep s p.2) Recorder.init.current_input
      [((0 : Nat), (101 : Nat)), (0, 120), (0, 105), (0, 116)] = "exit" := by decide
  rw [h4]
  rw [foldl_lineStep_spaces]
  show (rustTrim (String.mk ('e' :: 'x' :: 'i' :: 't' :: List.replicate n ' ')) == "exit") = true
  rw [rustTrim_exit_spaces]
  rfl

set_option maxRecDepth 4096 in
theorem decode_key_ne_delete_small : ∀ b < 256, ((decode_key b).1 == "Delete") = false := by
  decide

theorem decode_key_large (b : Nat) (hb : ¬ b < 256) :
    decode_key b = (formatHex02X b, true) := by
  unfold decode_key
  repeat rw [if_neg (by omega)]

theorem decode_key_ne_delete (b : Nat) : ((decode_key b).1 == "Delete") = false := by
  by_cases hb : b < 256
  · exact decode_key_ne_delete_small b hb
  · rw [decode_key_large b hb]
    rw [beq_eq_false_iff_ne]
    intro hcontr
    have h1 : ((formatHex02X b, true) : String × Bool).1.length = 4 := rfl
    rw [hcontr] at h1
    exact absurd h1 (by decide)

theorem summaryStep_delete_used (s : SessionSummary) (k : KeystrokeEvent)
    (h : (k.key_name == "Delete") = false) :
    (summaryStep s k).delete_used = s.delete_used := by
  rw [beq_eq_false_iff_ne] at h
  unfold summaryStep
  split_ifs <;> simp_all

theorem foldl_summaryStep_delete (ks : List KeystrokeEvent) :
    ∀ s : SessionSummary, (∀ k ∈ ks, (k.key_name == "Delete") = false) →
      (ks.foldl summaryStep s).delete_used = s.delete_used := by
  induction ks with
  | nil => intro s _; rfl
  | cons k rest ih =>
    intro s h
    rw [List.foldl_cons]
    rw [ih _ (fun x hx => h x (List.mem_cons_of_mem _ hx))]
    exact summaryStep_delete_used s k (h k (List.mem_cons_self _ _))

theorem process_input_keystroke_names (ts : Nat) (data : List (Nat × Nat)) :
    ∀ r : Recorder, (∀ k ∈ r.keystrokes, (k.key_name == "Delete") = false) →
      ∀ k ∈ (process_input ts r data).keystrokes, (k.key_name == "Delete") = false := by
  induction data with
  | nil => intro r h; exact h
  | cons p rest ih =>
    intro r h
    show ∀ k ∈ (process_input ts (processByte ts p.1 r p.2) rest).keystrokes, _
    apply ih
    intro k hk
    simp only [processByte, List.mem_append, List.mem_singleton] at hk
    rcases hk with hk | hk
    · exact h k hk
    · rw [hk]
      exact decode_key_ne_delete p.2

/-- The recording loop over the stdin chunks (`record_from_master`
repeatedly calling `process_input`), started from the fresh recorder. -/
def runRecorder (chunks : List (Nat × List (Nat × Nat))) : Recorder :=
  chunks.foldl (fun r c => process_input c.1 r c.2) Recorder.init

theorem runRecorder_keystroke_names (chunks : List (Nat × List (Nat × Nat))) :
    ∀ k ∈ (runRecorder chunks).keystrokes, (k.key_name == "Delete") = false := by
  suffices h : ∀ (cs : List (Nat × List (Nat × Nat))) (r : Recorder),
      (∀ k ∈ r.keystrokes, (k.key_name == "Delete") = false) →
      ∀ k ∈ (cs.foldl (fun r c => process_input c.1 r c.2) r).keystrokes,
        (k.key_name == "Delete") = false by
    exact h chunks Recorder.init (by intro k hk; simp [Recorder.init] at hk)
  intro cs
  induction cs with
  | nil => intro r h; exact h
  | cons c rest ih =>
    intro r h
    rw [List.foldl_cons]
    exact ih _ (process_input_keystroke_names c.1 c.2 r h)

/-- C9: `decode_key` never returns the key name `Delete` for any byte
value, and hence the `SessionSummary` generated from any recorded input
(any sequence of chunks processed by `process_input` from the fresh
recorder) has `delete_used = 0`. -/
theorem summary_delete_used_zero (byte : Nat) (chunks : List (Nat × List (Nat × Nat))) :
    ((decode_key byte).1 == "Delete") = false ∧
    (generate_summary (runRecorder chunks).keystrokes
      (runRecorder chunks).commands).delete_used = 0 := by
  refine ⟨decode_key_ne_delete byte, ?_⟩
  unfold generate_summary
  rw [foldl_summaryStep_delete _ _ (runRecorder_keystroke_names chunks)]

theorem processByte_keystrokes_sub (ts now : Nat) (r : Recorder) (b : Nat) :
    ∀ k ∈ (processByte ts now r b).keystrokes, k ∈ r.keystrokes ∨ k.timestamp = ts := by
  intro k hk
  simp only [processByte, List.mem_append, List.mem_singleton] at hk
  rcases hk with h | h
  · exact Or.inl h
  · right
    rw [h]

theorem processByte_commands_sub (ts now : Nat) (r : Recorder) (b : Nat) :
    ∀ c ∈ (processByte ts now r b).commands, c ∈ r.commands ∨ c.timestamp = ts := by
  intro c hc
  simp only [processByte] at hc
  split_ifs at hc
  all_goals first
  | exact Or.inl hc
  | (rcases List.mem_append.mp hc with h | h
     · exact Or.inl h
     · right
       rw [List.mem_singleton] at h
       rw [h])

/-- C10: all `KeystrokeEvent`s produced by a single `process_input` call
carry the chunk's one timestamp, and so does any `CommandEvent` emitted
within the chunk: every event present after the call was either already
there before it or carries exactly the chunk timestamp `ts`. -/
theorem chunk_events_share_timestamp (ts : Nat) (data : List (Nat × Nat)) :
    ∀ r : Recorder,
      (∀ k ∈ (process_input ts r data).keystrokes, k ∈ r.keystrokes ∨ k.timestamp = ts) ∧
      (∀ c ∈ (process_input ts r data).commands, c ∈ r.commands ∨ c.timestamp = ts) := by
  induction data with
  | nil =>
    intro r
    exact ⟨fun k hk => Or.inl hk, fun c hc => Or.inl hc⟩
  | cons p rest ih =>
    intro r
    constructor
    · intro k hk
      have hk2 : k ∈ (process_input ts (processByte ts p.1 r p.2) rest).keystrokes := hk
      rcases (ih (processByte ts p.1 r p.2)).1 k hk2 with h | h
      · rcases processByte_keystrokes_sub ts p.1 r p.2 k h with h2 | h2
        · exact Or.inl h2
        · exact Or.inr h2
      · exact Or.inr h
    · intro c hc
      have hc2 : c ∈ (process_input ts (processByte ts p.1 r p.2) rest).commands := hc
      rcases (ih (processByte ts p.1 r p.2)).2 c hc2 with h | h
      · rcases processByte_commands_sub ts p.1 r p.2 c h with h2 | h2
        · exact Or.inl h2
        · exact Or.inr h2
      · exact Or.inr h

/-- Witness for C10 at two concrete chunks (one keystroke, one command). -/
theorem chunk_events_share_timestamp_witness :
    ((⟨5, 97, "a", [97], false⟩ : KeystrokeEvent) ∈ Recorder.init.keystrokes ∨
        (⟨5, 97, "a", [97], false⟩ : KeystrokeEvent).timestamp = 5) ∧
    ((⟨5, "h"⟩ : CommandEvent) ∈ Recorder.init.commands ∨
        (⟨5, "h"⟩ : CommandEvent).timestamp = 5) :=
  ⟨(chunk_events_share_timestamp 5 [(0, 97)] Recorder.init).1 _ (by decide),
   (chunk_events_share_timestamp 5 [(0, 104), (0, 13)] Recorder.init).2 _ (by decide)⟩
